import Mathlib

/-!
Verification development for the GoodDollar kms-signer repository.

The repository provisions Ethereum signing keys inside AWS KMS and adapts
the raw DER artifacts the service returns into Ethereum addresses and
canonical recoverable signatures.  The key-listing module
(src/core/list.ts) and the import CLI call site (src/cli/import.ts) are
embedded directly from the source.  The cryptographic core (the import
orchestrator, the address resolver and the signature recovery engine) is
not present in the source tree, so those operations are modelled from the
specification; each such definition carries a doc comment saying so.
Keccak-256 and secp256k1 public-key recovery are standard primitives whose
internals none of the claims depend on; they are abstracted as fields of a
CryptoPrims record.
-/

/-- Decidable equality for the Except type, by cases on the two
constructors. -/
instance {ε α : Type _} [DecidableEq ε] [DecidableEq α] :
    DecidableEq (Except ε α) := fun a b =>
  match a, b with
  | .error x, .error y =>
    if h : x = y then .isTrue (congrArg Except.error h)
    else .isFalse (fun hh => h (by injection hh))
  | .error _, .ok _ => .isFalse (fun hh => by injection hh)
  | .ok _, .error _ => .isFalse (fun hh => by injection hh)
  | .ok x, .ok y =>
    if h : x = y then .isTrue (congrArg Except.ok h)
    else .isFalse (fun hh => h (by injection hh))

namespace KmsCore

/-- Order of the secp256k1 group, from the specification of the curve. -/
def curveOrder : Nat :=
  0xFFFFFFFFFFFFFFFFFFFFFFFFFFFFFFFEBAAEDCE6AF48A03BBFD25E8CD0364141

/-- Big-endian interpretation of a byte list as a natural number. -/
def bytesToNat (l : List Nat) : Nat :=
  l.foldl (fun a b => a * 256 + b) 0

/-- Big-endian encoding of a natural number into a fixed number of bytes. -/
def natToBytesBE : Nat → Nat → List Nat
  | 0, _ => []
  | k + 1, m => natToBytesBE k (m / 256) ++ [m % 256]

/-- Lower-case hexadecimal digit for a value below 16. -/
def hexChar (n : Nat) : Char :=
  if n < 10 then Char.ofNat (48 + n) else Char.ofNat (87 + n)

/-- Two lower-case hexadecimal digits for one byte. -/
def hexByte (b : Nat) : String :=
  String.mk [hexChar (b / 16), hexChar (b % 16)]

/-- Lower-case hexadecimal rendering of a byte list. -/
def hexOfBytes (l : List Nat) : String :=
  String.join (l.map hexByte)

/-- Last k bytes of a byte list. -/
def lastBytes (k : Nat) (l : List Nat) : List Nat :=
  l.drop (l.length - k)

/-- Error taxonomy of the core, from the failure modes named in the
specification sections 4.1 to 4.3 and 7. -/
inductive CoreError where
  | InvalidKeyMaterial
  | ImportTokenExpired
  | AliasCollision
  | ServiceUnavailable
  | KeyNotFound
  | MalformedPublicKey
  | MalformedSignature
  | DigestLengthInvalid
  | SignatureRecoveryFailed
deriving Repr, DecidableEq

/-- Abstract cryptographic primitives used by the core: the Keccak-256
hash and the standard secp256k1 public-key recovery procedure.  The claims
settled here depend only on how the core wires these primitives together,
not on their internals, so they are kept abstract. -/
structure CryptoPrims where
  keccak256 : List Nat → List Nat
  recover : Nat → Nat → Nat → List Nat → Option (List Nat)

/-- Remote key-management operations consumed by the resolver and the
recovery engine, from specification section 6: describePublicKey returns
the BIT STRING payload of the DER SubjectPublicKeyInfo for a handle, and
requestSignature returns the DER signature bytes for a digest. -/
structure SignService where
  describePublicKey : String → Except CoreError (List Nat)
  requestSignature : String → List Nat → Except CoreError (List Nat)

/-- Modelled from the spec: section 4.2 decoding step of the resolver
(missing source file src/core/signing.ts).  Verify the BIT STRING payload
begins with byte 0x04 and is exactly 65 bytes, then split into the
32-byte X and 32-byte Y coordinates; otherwise fail with
MalformedPublicKey. -/
def decodePublicKey (payload : List Nat) : Except CoreError (List Nat × List Nat) :=
  if payload.length = 65 ∧ payload.head? = some 4 then
    .ok ((payload.drop 1).take 32, (payload.drop 1).drop 32)
  else
    .error .MalformedPublicKey

/-- Modelled from the spec: section 4.2 address derivation (missing source
file src/core/signing.ts).  Hash the 64-byte X and Y concatenation with
Keccak-256, take the last 20 bytes, lower-case hex encode and prepend 0x. -/
def toEthAddress (C : CryptoPrims) (pub : List Nat) : String :=
  "0x" ++ hexOfBytes (lastBytes 20 (C.keccak256 pub))

/-- Modelled from the spec: the resolveAddress contract of section 4.2
(missing source file src/core/signing.ts).  Fetch the public key artifact,
decode it and derive the address. -/
def resolveAddress (C : CryptoPrims) (svc : SignService) (handle : String) :
    Except CoreError String :=
  match svc.describePublicKey handle with
  | .error e => .error e
  | .ok payload =>
    match decodePublicKey payload with
    | .error e => .error e
    | .ok xy => .ok (toEthAddress C (xy.1 ++ xy.2))

/-- Modelled from the spec: section 4.3 step 2 (missing source file
src/core/signing.ts).  Parse the DER SEQUENCE of two INTEGERs into r and s
as big-endian unsigned values; the optional leading zero byte of each
INTEGER disappears in the big-endian interpretation. -/
def derDecodeSig (der : List Nat) : Option (Nat × Nat) :=
  match der with
  | 48 :: len :: rest =>
    if rest.length = len then
      match rest with
      | 2 :: l1 :: tail =>
        if l1 ≤ tail.length then
          match tail.drop l1 with
          | 2 :: l2 :: tail2 =>
            if l2 = tail2.length then
              some (bytesToNat (tail.take l1), bytesToNat tail2)
            else none
          | _ => none
        else none
      | _ => none
    else none
  | _ => none

/-- Modelled from the spec: section 4.3 step 3 (missing source file
src/core/signing.ts).  If s is above half the curve order, replace it with
curveOrder minus s. -/
def canonicalizeS (s : Nat) : Nat :=
  if s > curveOrder / 2 then curveOrder - s else s

/-- Low-s canonicalization lifted to an (r, s) pair: r passes through
unchanged. -/
def canonicalizeRS (p : Nat × Nat) : Nat × Nat :=
  (p.1, canonicalizeS p.2)

/-- The canonical Ethereum signature tuple of the data model: r and s as
big-endian unsigned values and v in the 27 or 28 convention. -/
structure EthereumSignature where
  r : Nat
  s : Nat
  v : Nat
deriving Repr, DecidableEq

/-- Address recovered from a candidate (r, s, v) against a digest: run the
abstract recovery primitive and, when it yields an uncompressed point,
hash and truncate it with the same section 4.2 algorithm as the resolver. -/
def recoveredAddress (C : CryptoPrims) (r s v : Nat) (digest : List Nat) :
    Option String :=
  match C.recover r s v digest with
  | none => none
  | some pt =>
    match decodePublicKey pt with
    | .error _ => none
    | .ok xy => some (toEthAddress C (xy.1 ++ xy.2))

/-- Local steps 2 to 4 of the recovery engine of section 4.3: decode the
DER signature, canonicalize s, and accept the first recovery id candidate
whose recovered address equals the expected address; fail with
SignatureRecoveryFailed when neither candidate does. -/
def signCore (C : CryptoPrims) (addr : String) (digest der : List Nat) :
    Except CoreError EthereumSignature :=
  match derDecodeSig der with
  | none => .error .MalformedSignature
  | some (r, s) =>
    if recoveredAddress C r (canonicalizeS s) 0 digest = some addr then
      .ok ⟨r, canonicalizeS s, 27⟩
    else if recoveredAddress C r (canonicalizeS s) 1 digest = some addr then
      .ok ⟨r, canonicalizeS s, 28⟩
    else
      .error .SignatureRecoveryFailed

/-- Modelled from the spec: the sign contract of section 4.3 (missing
source file src/core/signing.ts).  Check the digest length, resolve the
expected address, obtain the raw DER signature from the service and run
the local decode, canonicalize and recovery-disambiguation steps. -/
def sign (C : CryptoPrims) (svc : SignService) (handle : String)
    (digest : List Nat) : Except CoreError EthereumSignature :=
  if digest.length ≠ 32 then .error .DigestLengthInvalid
  else
    match resolveAddress C svc handle with
    | .error e => .error e
    | .ok addr =>
      match svc.requestSignature handle digest with
      | .error e => .error e
      | .ok der => signCore C addr digest der

/-- Strip an optional 0x prefix from a hexadecimal string, as the import
contract of section 4.1 accepts keys with or without it. -/
def strip0x (s : String) : String :=
  match s.data with
  | '0' :: 'x' :: rest => String.mk rest
  | _ => s

/-- Value of one hexadecimal digit, or none for a non-hex character. -/
def hexVal (c : Char) : Option Nat :=
  if '0' ≤ c ∧ c ≤ '9' then some (c.toNat - 48)
  else if 'a' ≤ c ∧ c ≤ 'f' then some (c.toNat - 87)
  else if 'A' ≤ c ∧ c ≤ 'F' then some (c.toNat - 55)
  else none

/-- Decode a hexadecimal character list into bytes; fails on an odd length
or a non-hex character. -/
def hexToBytes : List Char → Option (List Nat)
  | [] => some []
  | [_] => none
  | c1 :: c2 :: rest =>
    match hexVal c1, hexVal c2, hexToBytes rest with
    | some a, some b, some t => some ((a * 16 + b) :: t)
    | _, _, _ => none

/-- Modelled from the spec: section 4.1 input validation of the import
orchestrator (missing source file src/core/setup.ts).  Reject a hex string
that does not decode to exactly 32 bytes, and reject a decoded scalar
equal to 0 or at least the curve order, with InvalidKeyMaterial. -/
def validatePrivateKey (privateKeyHex : String) : Except CoreError Nat :=
  match hexToBytes (strip0x privateKeyHex).data with
  | none => .error .InvalidKeyMaterial
  | some bytes =>
    if bytes.length ≠ 32 then .error .InvalidKeyMaterial
    else if bytesToNat bytes = 0 ∨ bytesToNat bytes ≥ curveOrder then
      .error .InvalidKeyMaterial
    else .ok (bytesToNat bytes)

/-- Key handle returned by a successful import: the service key id, its
ARN-equivalent resource name and the alias, as in the data model and in
the result fields read by src/cli/import.ts. -/
structure KeyHandle where
  keyId : String
  keyArn : String
  aliasName : String
deriving Repr, DecidableEq

/-- Argument record of the import flow, mirroring the parameter list of
the importKMSKey call in src/cli/import.ts lines 70 to 76: private key
hex, alias, region, optional expiration date and optional tags. -/
structure ImportArgs where
  privateKeyHex : String
  aliasName : String
  region : String
  expirationDate : Option Nat
  tags : Option (List (String × String))
deriving Repr, DecidableEq

/-- Remote import capability of section 6: the three-step wrapped-import
handshake collapsed to its observable effect, consuming the validated
scalar together with the alias, region, expiration and tags. -/
structure ImportService where
  importKey : Nat → String → String → Option Nat → Option (List (String × String)) →
    Except CoreError KeyHandle

/-- Modelled from the spec: the import contract of section 4.1 (missing
source file src/core/setup.ts).  Validate the key material locally, then
hand the scalar and the remaining arguments, the optional expiration date
included, to the remote import handshake. -/
def importKMSKey (svc : ImportService) (a : ImportArgs) :
    Except CoreError KeyHandle :=
  match validatePrivateKey a.privateKeyHex with
  | .error e => .error e
  | .ok k => svc.importKey k a.aliasName a.region a.expirationDate a.tags

/-- Argument record built by the import CLI call site, embedded from
src/cli/import.ts lines 70 to 76: the expiration date argument is passed
as undefined and the tags argument is the parsed tag list when non-empty,
undefined otherwise. -/
def cliImportArgs (privateKeyHex aliasName region : String)
    (tags : List (String × String)) : ImportArgs :=
  { privateKeyHex := privateKeyHex
    aliasName := aliasName
    region := region
    expirationDate := none
    tags := if tags.length > 0 then some tags else none }

/-- Concrete Keccak stand-in used by the evaluation fixtures: a fixed
32-byte output. -/
def keccakW : List Nat → List Nat := fun _ => List.range 32

/-- Concrete uncompressed public point used by the evaluation fixtures. -/
def pubPointW : List Nat := 4 :: List.replicate 64 7

/-- Fixture primitives whose recovery answers the point only for the
candidate (r, s, v) = (5, 6, 0). -/
def cwA : CryptoPrims :=
  ⟨keccakW, fun r s v _ => if r = 5 ∧ s = 6 ∧ v = 0 then some pubPointW else none⟩

/-- Fixture primitives whose recovery is symmetric under the low-s flip
around the scalar pair (curveOrder - 1, 1). -/
def cwB : CryptoPrims :=
  ⟨keccakW, fun _ s v _ =>
    if (s = curveOrder - 1 ∧ v = 0) ∨ (s = 1 ∧ v = 1) then some pubPointW else none⟩

/-- Fixture service answering the fixture point and a small DER signature
with r = 5 and s = 6. -/
def svcA : SignService :=
  ⟨fun _ => .ok pubPointW, fun _ _ => .ok [48, 6, 2, 1, 5, 2, 1, 6]⟩

/-- DER signature with r = 1 and a high s equal to curveOrder - 1; the s
INTEGER carries the DER leading zero byte. -/
def derB : List Nat :=
  48 :: 38 :: 2 :: 1 :: 1 :: 2 :: 33 :: 0 :: natToBytesBE 32 (curveOrder - 1)

/-- Fixture service answering the fixture point and the high-s DER
signature derB. -/
def svcB : SignService :=
  ⟨fun _ => .ok pubPointW, fun _ _ => .ok derB⟩

/-- Fixture service whose public key artifact payload has a wrong first
byte. -/
def svcBad : SignService :=
  ⟨fun _ => .ok (List.replicate 65 7), fun _ _ => .error .ServiceUnavailable⟩

/-- Concrete 32-byte digest used by the evaluation fixtures. -/
def digestW : List Nat := List.replicate 32 0

/-- Ethereum address derived by the fixture Keccak stand-in, which
ignores its input. -/
def addrW : String := "0x" ++ hexOfBytes (lastBytes 20 (List.range 32))

/-- Fixture import capability recording the alias into the handle. -/
def svcImpW : ImportService :=
  ⟨fun _ a _ _ _ => .ok ⟨"kid", "karn", a⟩⟩

/-- Hex string decoding to 31 bytes, one byte short. -/
def badHex31 : String := "0x" ++ String.mk (List.replicate 62 '0')

/-- Hex string decoding to the zero scalar. -/
def zeroHex : String := String.mk (List.replicate 64 '0')

/-- Hex string decoding to a scalar at least the curve order. -/
def bigHex : String := String.mk (List.replicate 64 'f')

/-- Hex string decoding to the scalar one. -/
def oneHex : String :=
  "0x0000000000000000000000000000000000000000000000000000000000000001"

/-- Import argument fixture for a given private key hex string. -/
def argsW (hex : String) : ImportArgs :=
  { privateKeyHex := hex
    aliasName := "a"
    region := "r"
    expirationDate := none
    tags := none }

/-- Signature fixture returned by sign on the cwA and svcA fixtures. -/
def sigW : EthereumSignature := ⟨5, 6, 27⟩

end KmsCore

namespace KmsList

/-- Tag map corresponding to the Record of string to string built by
src/core/list.ts: an insertion-ordered association list where assignment
overwrites an existing key in place. -/
abbrev TagMap := List (String × String)

/-- Assignment into a record object: overwrite the value at an existing
key, otherwise append the pair, as JavaScript object assignment does. -/
def recordSet (m : TagMap) (k v : String) : TagMap :=
  if m.any (fun p => p.1 == k) then
    m.map (fun p => if p.1 == k then (k, v) else p)
  else m ++ [(k, v)]

/-- Lookup in a record object. -/
def recordGet (m : TagMap) (k : String) : Option String :=
  (m.find? (fun p => p.1 == k)).map (fun p => p.2)

/-- One entry of the ListKeys response, with the optional KeyId and KeyArn
fields of the AWS SDK shape used in src/core/list.ts. -/
structure KeyListEntry where
  KeyId : Option String
  KeyArn : Option String
deriving Repr, DecidableEq

/-- One entry of the ListAliases response. -/
structure AliasEntry where
  AliasName : Option String
  TargetKeyId : Option String
deriving Repr, DecidableEq

/-- One entry of the ListResourceTags response. -/
structure TagEntry where
  TagKey : Option String
  TagValue : Option String
deriving Repr, DecidableEq

/-- Key metadata of the DescribeKey response; the creation date is
modelled as a numeric timestamp. -/
structure KeyMetadata where
  Description : Option String
  KeySpec : Option String
  KeyUsage : Option String
  KeyState : Option String
  CreationDate : Option Nat
  Enabled : Option Bool
deriving Repr, DecidableEq

/-- ListKeys response: the Keys field may be absent. -/
structure ListKeysResponse where
  Keys : Option (List KeyListEntry)
deriving Repr, DecidableEq

/-- ListAliases response. -/
structure ListAliasesResponse where
  Aliases : Option (List AliasEntry)
deriving Repr, DecidableEq

/-- ListResourceTags response. -/
structure ListTagsResponse where
  Tags : Option (List TagEntry)
deriving Repr, DecidableEq

/-- DescribeKey response. -/
structure DescribeResponse where
  KeyMetadata : Option KeyMetadata
deriving Repr, DecidableEq

/-- The KMS client operations sent by src/core/list.ts, each returning
either a response or a thrown error message. -/
structure KMSClient where
  listKeys : Except String ListKeysResponse
  listAliases : Except String ListAliasesResponse
  listResourceTags : String → Except String ListTagsResponse
  describeKey : String → Except String DescribeResponse

/-- Tag filter argument of listKMSKeys. -/
structure TagFilter where
  key : String
  value : String
deriving Repr, DecidableEq

/-- The key information record assembled by src/core/list.ts; fields not
assigned stay undefined, modelled as none.  The source field named alias
is rendered keyAlias because alias is a Lean keyword. -/
structure KeyInfo where
  keyId : String
  keyArn : String
  keyAlias : Option String := none
  description : Option String := none
  keySpec : Option String := none
  keyUsage : Option String := none
  keyState : Option String := none
  creationDate : Option Nat := none
  enabled : Option Bool := none
  tags : Option TagMap := none
deriving Repr, DecidableEq

/-- The fetchTags helper of src/core/list.ts lines 67 to 86: on a thrown
error return undefined; on a response whose Tags array is present and
non-empty, build the record from the entries that carry a truthy TagKey
and a defined TagValue; otherwise return undefined. -/
def fetchTags (client : KMSClient) (keyId : String) : Option TagMap :=
  match client.listResourceTags keyId with
  | .error _ => none
  | .ok resp =>
    match resp.Tags with
    | none => none
    | some entries =>
      if entries.length > 0 then
        some (entries.foldl
          (fun m tag =>
            match tag.TagKey, tag.TagValue with
            | some k, some v => if k = "" then m else recordSet m k v
            | _, _ => m)
          [])
      else none

/-- The matchesTagFilter helper of src/core/list.ts lines 88 to 93. -/
def matchesTagFilter (tagFilter : Option TagFilter) (tags : Option TagMap) :
    Bool :=
  match tagFilter with
  | none => true
  | some f =>
    match tags with
    | none => false
    | some m => recordGet m f.key == some f.value

/-- Truthiness of the KeyId field as JavaScript tests it: present and not
the empty string. -/
def truthyKeyId (k : KeyListEntry) : Bool :=
  match k.KeyId with
  | some s => s ≠ ""
  | none => false

/-- KeyId of an entry, defaulting to the empty string. -/
def keyIdOf (k : KeyListEntry) : String :=
  k.KeyId.getD ""

/-- The tagsCache map populated in the tag-filter branch of
src/core/list.ts lines 101 to 120: one entry per listed key with a truthy
KeyId, holding the fetchTags result for that key. -/
def tagsCacheList (client : KMSClient) (keys : List KeyListEntry) :
    List (String × Option TagMap) :=
  (keys.filter truthyKeyId).map (fun k => (keyIdOf k, fetchTags client (keyIdOf k)))

/-- Lookup in the tagsCache: some value when the map has the key (the
stored value may itself be undefined), none when it does not; a later
set wins, as for a JavaScript Map. -/
def cacheLookup (cache : List (String × Option TagMap)) (id : String) :
    Option (Option TagMap) :=
  (cache.reverse.find? (fun p => p.1 == id)).map (fun p => p.2)

/-- The alias map of src/core/list.ts lines 56 to 64: entries with a
truthy TargetKeyId and a truthy AliasName, later entries overwriting. -/
def buildAliasMap (resp : ListAliasesResponse) : List (String × String) :=
  match resp.Aliases with
  | none => []
  | some entries =>
    entries.foldl
      (fun m a =>
        match a.TargetKeyId, a.AliasName with
        | some t, some n => if t = "" ∨ n = "" then m else recordSet m t n
        | _, _ => m)
      []

/-- Copy the DescribeKey metadata fields into a KeyInfo record, as
src/core/list.ts lines 145 to 153 do. -/
def metadataInto (base : KeyInfo) (resp : DescribeResponse) : KeyInfo :=
  match resp.KeyMetadata with
  | some md =>
    { base with
      description := md.Description
      keySpec := md.KeySpec
      keyUsage := md.KeyUsage
      keyState := md.KeyState
      creationDate := md.CreationDate
      enabled := md.Enabled }
  | none => base

/-- The detail-fetching try block of src/core/list.ts lines 138 to 162: on
a successful describe, copy the metadata and then fetch tags when the tags
field is still undefined; a thrown describe error is caught and leaves the
record as it was, the tag fetch included. -/
def withDetails (client : KMSClient) (id : String) (base : KeyInfo) : KeyInfo :=
  match client.describeKey id with
  | .ok resp =>
    if (metadataInto base resp).tags.isNone then
      { metadataInto base resp with tags := fetchTags client id }
    else metadataInto base resp
  | .error _ => base

/-- The tail of the per-key loop body of src/core/list.ts lines 138 to
166: with details requested run the describe try block, otherwise fetch
tags only when they are still undefined and no tag filter is active. -/
def processTail (client : KMSClient) (includeDetails : Bool)
    (tagFilter : Option TagFilter) (id : String) (base : KeyInfo) : KeyInfo :=
  match includeDetails with
  | true => withDetails client id base
  | false =>
    if base.tags.isNone && tagFilter.isNone then
      { base with tags := fetchTags client id }
    else base

/-- The per-key body of the loop in src/core/list.ts lines 124 to 169:
skip entries without a truthy KeyId, seed the record from the list entry,
the alias map and the tags cache, then add details or fetch tags according
to the includeDetails and tagFilter flags. -/
def processKey (client : KMSClient) (includeDetails : Bool)
    (tagFilter : Option TagFilter) (aliasMap : List (String × String))
    (cache : List (String × Option TagMap)) (k : KeyListEntry) :
    Option KeyInfo :=
  match k.KeyId with
  | none => none
  | some id =>
    if id = "" then none
    else
      some (processTail client includeDetails tagFilter id
        { keyId := id
          keyArn := k.KeyArn.getD ""
          keyAlias := recordGet aliasMap id
          tags :=
            match cacheLookup cache id with
            | some v => v
            | none => none })

/-- The listKMSKeys function of src/core/list.ts: list the keys, return
the empty list when there are none, build the alias map, under a tag
filter fetch every tag map and keep only the matching keys, then assemble
one KeyInfo per remaining key; a thrown error of the initial list calls is
wrapped into the Failed-to-list message. -/
def listKMSKeys (client : KMSClient) (includeDetails : Bool)
    (tagFilter : Option TagFilter) : Except String (List KeyInfo) :=
  match client.listKeys with
  | .error e => .error ("Failed to list KMS keys: " ++ e)
  | .ok lk =>
    match lk.Keys with
    | none => .ok []
    | some keys =>
      if keys.isEmpty then .ok []
      else
        match client.listAliases with
        | .error e => .error ("Failed to list KMS keys: " ++ e)
        | .ok la =>
          let aliasMap := buildAliasMap la
          let cache :=
            match tagFilter with
            | none => []
            | some _ => tagsCacheList client keys
          let toProcess :=
            match tagFilter with
            | none => keys
            | some f =>
              (keys.filter truthyKeyId).filter
                (fun k => matchesTagFilter (some f) (fetchTags client (keyIdOf k)))
          .ok (toProcess.filterMap
            (processKey client includeDetails tagFilter aliasMap cache))

/-- Fixture client with one key whose tags fetch succeeds with a Purpose
tag and whose describe call fails. -/
def clientW : KMSClient where
  listKeys := .ok ⟨some [⟨some "key1", some "arn1"⟩]⟩
  listAliases := .ok ⟨some []⟩
  listResourceTags := fun _ => .ok ⟨some [⟨some "Purpose", some "Eth"⟩]⟩
  describeKey := fun _ => .error "denied"

/-- Fixture client with one key for which both the describe call and the
tags fetch fail. -/
def clientCE : KMSClient where
  listKeys := .ok ⟨some [⟨some "key1", some "arn1"⟩]⟩
  listAliases := .ok ⟨some []⟩
  listResourceTags := fun _ => .error "AccessDenied"
  describeKey := fun _ => .error "AccessDenied"

/-- Fixture client whose initial ListKeys call fails. -/
def clientERR : KMSClient where
  listKeys := .error "boom"
  listAliases := .ok ⟨none⟩
  listResourceTags := fun _ => .ok ⟨none⟩
  describeKey := fun _ => .ok ⟨none⟩

/-- Tag filter fixture. -/
def fW : TagFilter := ⟨"Purpose", "Eth"⟩

/-- KeyInfo record produced by listKMSKeys on the clientW fixture without
details under the fW filter. -/
def kiW : KeyInfo :=
  { keyId := "key1", keyArn := "arn1", tags := some [("Purpose", "Eth")] }

end KmsList

namespace KmsCore

theorem canonicalizeS_le (s : Nat) : canonicalizeS s ≤ curveOrder / 2 := by
  unfold canonicalizeS curveOrder
  split <;> omega

theorem canonicalizeS_eq_of_le {s : Nat} (h : s ≤ curveOrder / 2) :
    canonicalizeS s = s := by
  unfold canonicalizeS
  rw [if_neg (by omega)]

theorem canonicalizeS_idem (s : Nat) :
    canonicalizeS (canonicalizeS s) = canonicalizeS s :=
  canonicalizeS_eq_of_le (canonicalizeS_le s)

theorem recoveredAddress_congr {C : CryptoPrims} {r s v r2 s2 v2 : Nat}
    {d : List Nat} (h : C.recover r s v d = C.recover r2 s2 v2 d) :
    recoveredAddress C r s v d = recoveredAddress C r2 s2 v2 d := by
  unfold recoveredAddress
  rw [h]

theorem signCore_ok {C : CryptoPrims} {addr : String} {d der : List Nat}
    {sig : EthereumSignature} (h : signCore C addr d der = .ok sig) :
    recoveredAddress C sig.r sig.s (sig.v - 27) d = some addr ∧
      sig.s ≤ curveOrder / 2 := by
  unfold signCore at h
  split at h
  · exact absurd h (by simp)
  next r s heq =>
    split at h
    next h0 =>
      injection h with h2
      subst h2
      exact ⟨h0, canonicalizeS_le s⟩
    next h0 =>
      split at h
      next h1 =>
        injection h with h2
        subst h2
        exact ⟨h1, canonicalizeS_le s⟩
      next h1 => exact absurd h (by simp)

theorem sign_ok_inv {C : CryptoPrims} {svc : SignService} {h : String}
    {d : List Nat} {sig : EthereumSignature} (hs : sign C svc h d = .ok sig) :
    d.length = 32 ∧ ∃ addr der, resolveAddress C svc h = .ok addr ∧
      svc.requestSignature h d = .ok der ∧ signCore C addr d der = .ok sig := by
  unfold sign at hs
  split at hs
  next hd => exact absurd hs (by simp)
  next hd =>
    refine ⟨by omega, ?_⟩
    split at hs
    next e heq => exact absurd hs (by simp)
    next addr heq =>
      split at hs
      next e heq2 => exact absurd hs (by simp)
      next der heq2 => exact ⟨addr, der, heq, heq2, hs⟩

/-- C3: for every key handle whose public key artifact decodes to an
uncompressed secp256k1 point, resolveAddress equals the 0x-prefixed
lower-case hex encoding of the last 20 bytes of the Keccak-256 hash of the
64-byte X and Y concatenation with the 0x04 prefix byte stripped. -/
theorem resolveAddress_keccak_last20 (C : CryptoPrims) (svc : SignService)
    (h : String) (payload : List Nat)
    (hp : svc.describePublicKey h = .ok payload)
    (hlen : payload.length = 65) (hhead : payload.head? = some 4) :
    resolveAddress C svc h =
      .ok ("0x" ++ hexOfBytes (lastBytes 20 (C.keccak256 (payload.drop 1)))) := by
  have hdec : decodePublicKey payload =
      .ok ((payload.drop 1).take 32, (payload.drop 1).drop 32) := by
    unfold decodePublicKey
    rw [if_pos ⟨hlen, hhead⟩]
  simp only [resolveAddress, hp, hdec, toEthAddress]
  rw [List.take_append_drop]

/-- Witness for C3 at a concrete 65-byte uncompressed point. -/
theorem resolveAddress_keccak_last20_w :
    resolveAddress cwA svcA "k" =
      .ok ("0x" ++ hexOfBytes (lastBytes 20 (cwA.keccak256 (pubPointW.drop 1)))) :=
  resolveAddress_keccak_last20 cwA svcA "k" pubPointW rfl (by decide) (by decide)

/-- C4: a fetched public key artifact whose BIT STRING payload does not
begin with byte 0x04 or is not exactly 65 bytes makes resolveAddress fail
with MalformedPublicKey; no truncated or padded address is produced. -/
theorem resolveAddress_malformed (C : CryptoPrims) (svc : SignService)
    (h : String) (payload : List Nat)
    (hp : svc.describePublicKey h = .ok payload)
    (hbad : ¬(payload.length = 65 ∧ payload.head? = some 4)) :
    resolveAddress C svc h = .error .MalformedPublicKey := by
  have hdec : decodePublicKey payload = .error .MalformedPublicKey := by
    unfold decodePublicKey
    rw [if_neg hbad]
  simp only [resolveAddress, hp, hdec]

/-- Witness for C4 at a concrete 65-byte payload whose first byte is 7. -/
theorem resolveAddress_malformed_w :
    resolveAddress cwA svcBad "k" = .error .MalformedPublicKey :=
  resolveAddress_malformed cwA svcBad "k" (List.replicate 65 7) rfl (by decide)

/-- C5: a digest whose length is not exactly 32 bytes makes sign fail with
DigestLengthInvalid, and the result does not depend on the remote service,
so no remote signing request is issued before that failure. -/
theorem sign_digest_length_checked (C : CryptoPrims) (svc svc2 : SignService)
    (h : String) (d : List Nat) (hlen : d.length ≠ 32) :
    sign C svc h d = .error .DigestLengthInvalid ∧
      sign C svc h d = sign C svc2 h d := by
  constructor
  · unfold sign
    rw [if_pos hlen]
  · unfold sign
    rw [if_pos hlen, if_pos hlen]

/-- Witness for C5 at a concrete 31-byte digest. -/
theorem sign_digest_length_checked_w :
    sign cwA svcA "k" (List.replicate 31 0) = .error .DigestLengthInvalid ∧
      sign cwA svcA "k" (List.replicate 31 0) = sign cwA svcB "k" (List.replicate 31 0) :=
  sign_digest_length_checked cwA svcA svcB "k" (List.replicate 31 0) (by decide)

/-- C7: the low-s canonicalization step returns an already-canonical
(r, s) pair unchanged, and applying it twice equals applying it once. -/
theorem canonicalize_idempotent :
    (∀ p : Nat × Nat, p.2 ≤ curveOrder / 2 → canonicalizeRS p = p) ∧
    ∀ p : Nat × Nat, canonicalizeRS (canonicalizeRS p) = canonicalizeRS p := by
  constructor
  · rintro ⟨r, s⟩ hp
    simp only [canonicalizeRS]
    rw [canonicalizeS_eq_of_le hp]
  · rintro ⟨r, s⟩
    simp only [canonicalizeRS]
    rw [canonicalizeS_idem]

/-- Witness for C7 at the canonical pair (3, 5) and at a pair with a high
s component. -/
theorem canonicalize_idempotent_w :
    canonicalizeRS (3, 5) = (3, 5) ∧
      canonicalizeRS (canonicalizeRS (3, curveOrder - 1)) =
        canonicalizeRS (3, curveOrder - 1) :=
  ⟨canonicalize_idempotent.1 (3, 5) (by decide),
   canonicalize_idempotent.2 (3, curveOrder - 1)⟩

/-- C1: whenever sign returns a signature, the address recovered from
that signature and the digest equals the address resolved for the handle;
an unverified signature is never returned. -/
theorem sign_never_unverified (C : CryptoPrims) (svc : SignService)
    (h : String) (d : List Nat) (sig : EthereumSignature)
    (hs : sign C svc h d = .ok sig) :
    ∃ addr, resolveAddress C svc h = .ok addr ∧
      recoveredAddress C sig.r sig.s (sig.v - 27) d = some addr := by
  obtain ⟨-, addr, der, ha, -, hcore⟩ := sign_ok_inv hs
  exact ⟨addr, ha, (signCore_ok hcore).1⟩

/-- Witness for C1 at concrete fixtures where sign succeeds with the
candidate v = 27. -/
theorem sign_never_unverified_w :
    ∃ addr, resolveAddress cwA svcA "k" = .ok addr ∧
      recoveredAddress cwA sigW.r sigW.s (sigW.v - 27) digestW = some addr :=
  sign_never_unverified cwA svcA "k" digestW sigW (by decide)

/-- C2: the canonicalization step replaces a decoded s above half the
curve order by curveOrder minus s, every signature sign returns has s at
most half the curve order, a raw s of curveOrder minus 1 is canonicalized
to 1, and under the standard low-s recovery symmetry the accepted
recovery id is flipped relative to the unique candidate matching the
un-canonicalized pair. -/
theorem sign_canonicalizes_high_s :
    (∀ s, s > curveOrder / 2 → canonicalizeS s = curveOrder - s) ∧
    (∀ (C : CryptoPrims) (svc : SignService) (h : String) (d : List Nat)
      (sig : EthereumSignature), sign C svc h d = .ok sig →
      sig.s ≤ curveOrder / 2) ∧
    canonicalizeS (curveOrder - 1) = 1 ∧
    ∀ (C : CryptoPrims) (svc : SignService) (h : String) (digest : List Nat)
      (addr : String) (der : List Nat) (r sraw v0 : Nat),
      digest.length = 32 →
      resolveAddress C svc h = .ok addr →
      svc.requestSignature h digest = .ok der →
      derDecodeSig der = some (r, sraw) →
      sraw > curveOrder / 2 →
      v0 ≤ 1 →
      (∀ v, v ≤ 1 →
        C.recover r (curveOrder - sraw) (1 - v) digest = C.recover r sraw v digest) →
      recoveredAddress C r sraw v0 digest = some addr →
      recoveredAddress C r sraw (1 - v0) digest ≠ some addr →
      sign C svc h digest = .ok ⟨r, curveOrder - sraw, 27 + (1 - v0)⟩ := by
  refine ⟨?_, ?_, ?_, ?_⟩
  · intro s hs
    unfold canonicalizeS
    rw [if_pos hs]
  · intro C svc h d sig hsig
    obtain ⟨-, addr, der, -, -, hcore⟩ := sign_ok_inv hsig
    exact (signCore_ok hcore).2
  · unfold canonicalizeS curveOrder
    norm_num
  · intro C svc h digest addr der r sraw v0 hd ha hq hdec hhi hv0 hsym hmatch hnot
    have hlen : ¬(digest.length ≠ 32) := by omega
    have hcanon : canonicalizeS sraw = curveOrder - sraw := by
      unfold canonicalizeS
      rw [if_pos hhi]
    have h10 : C.recover r (curveOrder - sraw) 0 digest = C.recover r sraw 1 digest := by
      have := hsym 1 (by omega)
      simpa using this
    have h01 : C.recover r (curveOrder - sraw) 1 digest = C.recover r sraw 0 digest := by
      have := hsym 0 (by omega)
      simpa using this
    have e0 : recoveredAddress C r (curveOrder - sraw) 0 digest
        = recoveredAddress C r sraw 1 digest := recoveredAddress_congr h10
    have e1 : recoveredAddress C r (curveOrder - sraw) 1 digest
        = recoveredAddress C r sraw 0 digest := recoveredAddress_congr h01
    simp only [sign, if_neg hlen, ha, hq, signCore, hdec, hcanon, e0, e1]
    rcases Nat.le_one_iff_eq_zero_or_eq_one.mp hv0 with rfl | rfl
    · simp only [Nat.sub_zero] at hnot ⊢
      rw [if_neg hnot, if_pos hmatch]
    · simp only [Nat.sub_self] at hnot ⊢
      rw [if_pos hmatch]

/-- Witness for C2 at a concrete service returning a DER signature whose
s is curveOrder minus 1, with a recovery primitive symmetric under the
low-s flip: the result carries s canonicalized to 1 and the flipped
recovery id 28. -/
theorem sign_canonicalizes_high_s_w :
    sign cwB svcB "k" digestW = .ok ⟨1, curveOrder - (curveOrder - 1), 27 + (1 - 0)⟩ :=
  sign_canonicalizes_high_s.2.2.2 cwB svcB "k" digestW addrW derB 1 (curveOrder - 1) 0
    (by decide) (by decide) (by decide) (by decide) (by decide) (by decide)
    (by intro v hv; interval_cases v <;> decide) (by decide) (by decide)

/-- C6: import rejects with InvalidKeyMaterial, independently of the
remote service, every private key hex input that does not decode to
exactly 32 bytes and every decoded scalar equal to 0 or at least the
curve order. -/
theorem import_rejects_invalid_material (svc : ImportService) (a : ImportArgs)
    (hbad : hexToBytes (strip0x a.privateKeyHex).data = none ∨
      ∃ bytes, hexToBytes (strip0x a.privateKeyHex).data = some bytes ∧
        (bytes.length ≠ 32 ∨ bytesToNat bytes = 0 ∨ bytesToNat bytes ≥ curveOrder)) :
    importKMSKey svc a = .error .InvalidKeyMaterial := by
  unfold importKMSKey validatePrivateKey
  rcases hbad with hnone | ⟨bytes, hb, hcase⟩
  · rw [hnone]
  · simp only [hb]
    by_cases hl : bytes.length = 32
    · rw [if_neg (by omega)]
      have hmid : bytesToNat bytes = 0 ∨ bytesToNat bytes ≥ curveOrder := by
        rcases hcase with h1 | h2 | h3
        · exact absurd hl h1
        · exact Or.inl h2
        · exact Or.inr h3
      rw [if_pos hmid]
    · rw [if_pos hl]

/-- Witness for C6 at three concrete rejected inputs: a 31-byte key, the
zero scalar and a scalar at least the curve order. -/
theorem import_rejects_invalid_material_w :
    importKMSKey svcImpW (argsW badHex31) = .error .InvalidKeyMaterial ∧
      importKMSKey svcImpW (argsW zeroHex) = .error .InvalidKeyMaterial ∧
      importKMSKey svcImpW (argsW bigHex) = .error .InvalidKeyMaterial :=
  ⟨import_rejects_invalid_material svcImpW (argsW badHex31)
      (Or.inr ⟨List.replicate 31 0, by decide, Or.inl (by decide)⟩),
   import_rejects_invalid_material svcImpW (argsW zeroHex)
      (Or.inr ⟨List.replicate 32 0, by decide, Or.inr (Or.inl (by decide))⟩),
   import_rejects_invalid_material svcImpW (argsW bigHex)
      (Or.inr ⟨List.replicate 32 255, by decide, Or.inr (Or.inr (by decide))⟩)⟩

/-- C8: the import flow threads its optional key-expiration parameter
unchanged into the remote import capability, and the one import call site
of the repository, the import CLI, passes that parameter as unset. -/
theorem import_expiration_param :
    (∀ (svc : ImportService) (a : ImportArgs) (k : Nat),
      validatePrivateKey a.privateKeyHex = .ok k →
      importKMSKey svc a =
        svc.importKey k a.aliasName a.region a.expirationDate a.tags) ∧
    ∀ (hex an rg : String) (tags : List (String × String)),
      (cliImportArgs hex an rg tags).expirationDate = none := by
  constructor
  · intro svc a k hk
    simp only [importKMSKey, hk]
  · intro hex an rg tags
    rfl

/-- Witness for C8 at a concrete valid scalar and a concrete CLI
invocation. -/
theorem import_expiration_param_w :
    importKMSKey svcImpW (argsW oneHex) =
      svcImpW.importKey 1 (argsW oneHex).aliasName (argsW oneHex).region
        (argsW oneHex).expirationDate (argsW oneHex).tags ∧
      (cliImportArgs oneHex "a" "r" []).expirationDate = none :=
  ⟨import_expiration_param.1 svcImpW (argsW oneHex) 1 (by decide),
   import_expiration_param.2 oneHex "a" "r" []⟩

end KmsCore

namespace KmsList

theorem tagsCacheList_val {client : KMSClient} {keys : List KeyListEntry}
    {p : String × Option TagMap} (hp : p ∈ tagsCacheList client keys) :
    p.2 = fetchTags client p.1 := by
  unfold tagsCacheList at hp
  obtain ⟨k, -, rfl⟩ := List.mem_map.mp hp
  rfl

theorem cacheLookup_tagsCache {client : KMSClient} {keys : List KeyListEntry}
    {k : KeyListEntry} {id : String}
    (hk : k ∈ keys.filter truthyKeyId) (hid : k.KeyId = some id) :
    cacheLookup (tagsCacheList client keys) id = some (fetchTags client id) := by
  have hmem : (id, fetchTags client id) ∈ tagsCacheList client keys := by
    unfold tagsCacheList
    refine List.mem_map.mpr ⟨k, hk, ?_⟩
    unfold keyIdOf
    rw [hid]
    rfl
  have hsome : (((tagsCacheList client keys).reverse).find?
      (fun p => p.1 == id)).isSome := by
    rw [List.find?_isSome]
    exact ⟨_, List.mem_reverse.mpr hmem, by simp⟩
  obtain ⟨q, hq⟩ := Option.isSome_iff_exists.mp hsome
  have hqid : q.1 = id := by simpa using List.find?_some hq
  have hqval : q.2 = fetchTags client q.1 :=
    tagsCacheList_val (List.mem_reverse.mp (List.mem_of_find?_eq_some hq))
  unfold cacheLookup
  rw [hq]
  simp [hqval, hqid]

theorem metadataInto_tags (base : KeyInfo) (resp : DescribeResponse) :
    (metadataInto base resp).tags = base.tags := by
  unfold metadataInto
  cases resp.KeyMetadata <;> rfl

theorem metadataInto_keyId (base : KeyInfo) (resp : DescribeResponse) :
    (metadataInto base resp).keyId = base.keyId := by
  unfold metadataInto
  cases resp.KeyMetadata <;> rfl

theorem withDetails_tags_some {client : KMSClient} {id : String}
    {base : KeyInfo} {m : TagMap} (hb : base.tags = some m) :
    (withDetails client id base).tags = some m := by
  unfold withDetails
  split
  next resp heq =>
    rw [if_neg (by rw [metadataInto_tags, hb]; simp)]
    rw [metadataInto_tags, hb]
  next => exact hb

theorem withDetails_keyId {client : KMSClient} {id : String} {base : KeyInfo} :
    (withDetails client id base).keyId = base.keyId := by
  unfold withDetails
  split
  next resp heq =>
    split
    · simp [metadataInto_keyId]
    · rw [metadataInto_keyId]
  next => rfl

theorem processKey_tags_of_cached {client : KMSClient} {d : Bool}
    {f : TagFilter} {aliasMap : List (String × String)}
    {cache : List (String × Option TagMap)} {k : KeyListEntry} {id : String}
    {m : TagMap} {ki : KeyInfo} (hid : k.KeyId = some id) (hne : id ≠ "")
    (hc : cacheLookup cache id = some (some m))
    (hp : processKey client d (some f) aliasMap cache k = some ki) :
    ki.tags = some m ∧ ki.keyId = id := by
  unfold processKey at hp
  rw [hid] at hp
  simp only [if_neg hne, hc] at hp
  injection hp with hki
  subst hki
  cases d with
  | true =>
    simp only [processTail]
    exact ⟨withDetails_tags_some rfl, by rw [withDetails_keyId]⟩
  | false =>
    simp only [processTail]
    simp

/-- C9: every key returned by listKMSKeys under a tag filter carries a
successfully fetched tag map that maps the filter key to exactly the
filter value; keys whose tags are absent, differ at that key, or could
not be fetched are excluded. -/
theorem listKMSKeys_filter_matches (client : KMSClient) (d : Bool)
    (f : TagFilter) (res : List KeyInfo)
    (hres : listKMSKeys client d (some f) = .ok res) :
    ∀ ki ∈ res, ∃ m, ki.tags = some m ∧ recordGet m f.key = some f.value ∧
      fetchTags client ki.keyId = some m := by
  simp only [listKMSKeys] at hres
  split at hres
  next => exact absurd hres (by simp)
  next lk hlk =>
    split at hres
    next =>
      injection hres with h
      subst h
      intro ki hki
      exact absurd hki (by simp)
    next keys hkeys =>
      split at hres
      next =>
        injection hres with h
        subst h
        intro ki hki
        exact absurd hki (by simp)
      next =>
        split at hres
        next => exact absurd hres (by simp)
        next la hla =>
          injection hres with h
          subst h
          intro ki hki
          obtain ⟨k, hkmem, hproc⟩ := List.mem_filterMap.mp hki
          obtain ⟨hkfil, hmatch⟩ := List.mem_filter.mp hkmem
          have htr : truthyKeyId k = true := (List.mem_filter.mp hkfil).2
          cases hid : k.KeyId with
          | none =>
            unfold truthyKeyId at htr
            rw [hid] at htr
            exact absurd htr (by simp)
          | some id =>
            have hne : id ≠ "" := by
              unfold truthyKeyId at htr
              rw [hid] at htr
              simpa using htr
            have hkid : keyIdOf k = id := by
              unfold keyIdOf
              rw [hid]
              rfl
            rw [hkid] at hmatch
            simp only [matchesTagFilter] at hmatch
            cases hft : fetchTags client id with
            | none =>
              rw [hft] at hmatch
              exact absurd hmatch (by simp)
            | some m =>
              rw [hft] at hmatch
              have hval : recordGet m f.key = some f.value := by
                simpa using hmatch
              have hcl : cacheLookup (tagsCacheList client keys) id
                  = some (some m) := by
                rw [cacheLookup_tagsCache hkfil hid, hft]
              obtain ⟨htags, hkeyid⟩ :=
                processKey_tags_of_cached hid hne hcl hproc
              refine ⟨m, htags, hval, ?_⟩
              rw [hkeyid, hft]

/-- Witness for C9 at a concrete client whose single key carries the
matching Purpose tag. -/
theorem listKMSKeys_filter_matches_w :
    ∃ m, kiW.tags = some m ∧ recordGet m fW.key = some fW.value ∧
      fetchTags clientW kiW.keyId = some m :=
  listKMSKeys_filter_matches clientW false fW [kiW] (by decide) kiW (by decide)

/-- C10 counterexample: the claim says a key whose tag fetch fails is
still included in the result with its tag field undefined, yet under a
tag filter the clientCE fixture lists the key key1, its tag fetch fails,
and listKMSKeys returns the empty list: the key is excluded, not
included. -/
theorem listKMSKeys_tag_failure_excludes_ce :
    listKMSKeys clientCE true (some ⟨"Purpose", "Eth"⟩) = .ok [] := by decide

/-- C10 amended: listKMSKeys throws only when the initial list-keys or
list-aliases call fails, with an Error message beginning with the
Failed-to-list prefix; when no tag filter is given, a key whose describe
call and tag fetch both fail is still included with its detail and tag
fields undefined.  Under a tag filter a failed tag fetch excludes the key
without throwing, as the counterexample shows. -/
theorem listKMSKeys_error_scope :
    (∀ (client : KMSClient) (d : Bool) (f : Option TagFilter) (e : String),
      listKMSKeys client d f = .error e →
      ∃ m, e = "Failed to list KMS keys: " ++ m ∧
        (client.listKeys = .error m ∨ client.listAliases = .error m)) ∧
    ∀ (client : KMSClient) (keys : List KeyListEntry) (k : KeyListEntry)
      (id : String) (la : ListAliasesResponse) (e1 e2 : String),
      client.listKeys = .ok ⟨some keys⟩ →
      client.listAliases = .ok la →
      k ∈ keys → k.KeyId = some id → id ≠ "" →
      client.describeKey id = .error e1 →
      client.listResourceTags id = .error e2 →
      ∃ res, listKMSKeys client true none = .ok res ∧
        ∃ ki ∈ res, ki.keyId = id ∧ ki.description = none ∧ ki.keySpec = none ∧
          ki.keyUsage = none ∧ ki.keyState = none ∧ ki.creationDate = none ∧
          ki.enabled = none ∧ ki.tags = none := by
  constructor
  · intro client d f e hres
    simp only [listKMSKeys] at hres
    split at hres
    next m hm =>
      injection hres with h
      exact ⟨m, h.symm, Or.inl hm⟩
    next lk hlk =>
      split at hres
      next => exact absurd hres (by simp)
      next keys =>
        split at hres
        next => exact absurd hres (by simp)
        next =>
          split at hres
          next m hm =>
            injection hres with h
            exact ⟨m, h.symm, Or.inr hm⟩
          next => exact absurd hres (by simp)
  · intro client keys k id la e1 e2 hlk hla hk hid hne hdesc htags
    have hnonempty : keys.isEmpty = false := by
      cases keys with
      | nil => exact absurd hk (by simp)
      | cons a l => rfl
    refine ⟨(keys.filterMap
      (processKey client true none (buildAliasMap la) [])), ?_, ?_⟩
    · simp only [listKMSKeys, hlk, hla, hnonempty]
      simp
    · refine ⟨⟨id, k.KeyArn.getD "", recordGet (buildAliasMap la) id,
        none, none, none, none, none, none, none⟩, ?_,
        rfl, rfl, rfl, rfl, rfl, rfl, rfl, rfl⟩
      refine List.mem_filterMap.mpr ⟨k, hk, ?_⟩
      simp only [processKey, hid, if_neg hne, cacheLookup, List.reverse_nil,
        List.find?_nil, Option.map_none', processTail, withDetails, hdesc]

/-- Witness for C10 at the clientCE fixture with no tag filter: the key
with failing describe and tag calls is still returned with undefined
detail and tag fields. -/
theorem listKMSKeys_error_scope_w :
    ∃ res, listKMSKeys clientCE true none = .ok res ∧
      ∃ ki ∈ res, ki.keyId = "key1" ∧ ki.description = none ∧
        ki.keySpec = none ∧ ki.keyUsage = none ∧ ki.keyState = none ∧
        ki.creationDate = none ∧ ki.enabled = none ∧ ki.tags = none :=
  listKMSKeys_error_scope.2 clientCE [⟨some "key1", some "arn1"⟩]
    ⟨some "key1", some "arn1"⟩ "key1" ⟨some []⟩ "AccessDenied" "AccessDenied"
    rfl rfl (by decide) rfl (by decide) rfl rfl

end KmsList
